import Mathlib

/-!
Verification development for the decoupler-py sources `pre.py` and
`method_ulm.py` (Univariate Linear Model method).

The Python code is shallowly embedded:
* numpy float arrays become functions into `ℝ` (float rounding is not
  modelled; the claims under study are about the algebraic recipe);
* matrices become functions `ℕ → ℕ → ℝ` together with explicit dimensions;
* pandas tables become lists of records / association lists of columns;
* code that can raise a Python exception returns `Except PyErr`.
-/

/-- Python exception kinds raised by the embedded code. -/
inductive PyErr
  | typeError
  | valueError
  | assertionError
deriving DecidableEq, Repr

/-- One record of a canonical long-format network table
(`source` = regulator, `target`, `weight`), as produced by `rename_net`. -/
structure NetRec where
  source : String
  target : String
  weight : ℝ

/-- Arithmetic mean of the first `n` entries of `f` (`np.mean`). -/
noncomputable def pymean (n : ℕ) (f : ℕ → ℝ) : ℝ :=
  (∑ k in Finset.range n, f k) / n

/-- Biased (divide-by-N) covariance of the first `n` entries of `x` and `y`,
the entries of `np.cov(x, y, bias=1)`. -/
noncomputable def covBias (n : ℕ) (x y : ℕ → ℝ) : ℝ :=
  (∑ k in Finset.range n, (x k - pymean n x) * (y k - pymean n y)) / n

/-- Biased (divide-by-N) variance, as the spec words it: the mean squared
deviation from the mean. -/
noncomputable def biasedVar (n : ℕ) (x : ℕ → ℝ) : ℝ :=
  (∑ k in Finset.range n, (x k - pymean n x) ^ 2) / n

/-- Densification of one CSR row: `row[indices[s:s+len]] = data[s:s+len]`,
zeros elsewhere.  numpy fancy assignment lets the last occurrence win when
`indices` repeats a position, hence the left fold. -/
def csrRow (data : ℕ → ℝ) (indices : ℕ → ℕ) (s len : ℕ) : ℕ → ℝ :=
  fun k => (List.range len).foldl
    (fun acc q => if indices (s + q) = k then data (s + q) else acc) 0

/-- `nb_ulm` from `method_ulm.py`: for each sample row `i` (materialized from
CSR form) and regulator column `j` of `net`, the biased covariance terms of
the weight column and the dense row give a Pearson `r`, converted to a
t-statistic with the shared `df = netRows - 2`.  `net` has shape
`(netRows, n_fsets)`; the kernel presumes `netRows = n_features`
(guaranteed upstream by `match`, spec section 4.3).  Entries outside the
`(n_samples, n_fsets)` result shape are 0. -/
noncomputable def nb_ulm (n_samples n_features : ℕ) (data : ℕ → ℝ)
    (indptr indices : ℕ → ℕ) (netRows n_fsets : ℕ) (net : ℕ → ℕ → ℝ) :
    ℕ → ℕ → ℝ :=
  let df : ℝ := (netRows : ℝ) - 2
  fun i j =>
    if i < n_samples ∧ j < n_fsets then
      let row : ℕ → ℝ := csrRow data indices (indptr i) (indptr (i + 1) - indptr i)
      let x : ℕ → ℝ := fun k => net k j
      let ssxm := covBias n_features x x
      let ssxym := covBias n_features x row
      let ssym := covBias n_features row row
      let r := ssxym / Real.sqrt (ssxm * ssym)
      r * Real.sqrt (df / ((1 - r + 1e-20) * (1 + r + 1e-20)))
    else 0

/-- Modelled from the spec: `scipy.stats.stats._ttest_finish(df, t, 'two-sided')`
is external library code; the spec states the two-sided p-value is
`p = 2 * (1 - CDF_t(|t|; df))`.  The Student-t cumulative distribution
function is abstracted as the parameter `cdf` (first argument `df`). -/
noncomputable def ttest_finish (cdf : ℝ → ℝ → ℝ) (df : ℝ) (t : ℕ → ℕ → ℝ) :
    ℕ → ℕ → ℝ :=
  fun i j => 2 * (1 - cdf df |t i j|)

/-- `ulm` from `method_ulm.py`: computes `df` from the row count of the
aligned weight matrix, runs the kernel, and finishes with two-sided
p-values.  The body contains no validation and no raise path, hence the
result is always `Except.ok`. -/
noncomputable def ulm (cdf : ℝ → ℝ → ℝ) (n_samples n_features : ℕ)
    (data : ℕ → ℝ) (indptr indices : ℕ → ℕ) (netRows n_fsets : ℕ)
    (net : ℕ → ℕ → ℝ) :
    Except PyErr ((ℕ → ℕ → ℝ) × (ℕ → ℕ → ℝ)) :=
  let df : ℝ := (netRows : ℝ) - 2
  let es := nb_ulm n_samples n_features data indptr indices netRows n_fsets net
  let pvals := ttest_finish cdf df es
  Except.ok (es, pvals)

lemma biasedVar_eq_covBias (n : ℕ) (x : ℕ → ℝ) :
    biasedVar n x = covBias n x x := by
  unfold biasedVar covBias
  congr 1
  refine Finset.sum_congr rfl fun k _ => ?_
  ring

/-- C1: for every sample row `i` and regulator column `j` in range, the
kernel's estimate equals `t = r * sqrt(df / ((1 - r + ε) * (1 + r + ε)))`
with `ε = 1e-20`, where `r = ssxym / sqrt(ssxm * ssym)` is built from the
biased variance of the regulator's weight column, the biased covariance of
that column with the materialized dense feature vector of row `i`, and the
biased variance of that vector, and `df = netRows - 2` is shared across all
regulators and samples. -/
theorem C1_kernel_formula (n_samples n_features : ℕ) (data : ℕ → ℝ)
    (indptr indices : ℕ → ℕ) (netRows n_fsets : ℕ) (net : ℕ → ℕ → ℝ)
    (i j : ℕ) (hi : i < n_samples) (hj : j < n_fsets) :
    nb_ulm n_samples n_features data indptr indices netRows n_fsets net i j =
      (covBias n_features (fun k => net k j)
          (csrRow data indices (indptr i) (indptr (i + 1) - indptr i)) /
        Real.sqrt (biasedVar n_features (fun k => net k j) *
          biasedVar n_features
            (csrRow data indices (indptr i) (indptr (i + 1) - indptr i)))) *
      Real.sqrt (((netRows : ℝ) - 2) /
        ((1 - covBias n_features (fun k => net k j)
              (csrRow data indices (indptr i) (indptr (i + 1) - indptr i)) /
            Real.sqrt (biasedVar n_features (fun k => net k j) *
              biasedVar n_features
                (csrRow data indices (indptr i) (indptr (i + 1) - indptr i)))
            + 1e-20) *
         (1 + covBias n_features (fun k => net k j)
              (csrRow data indices (indptr i) (indptr (i + 1) - indptr i)) /
            Real.sqrt (biasedVar n_features (fun k => net k j) *
              biasedVar n_features
                (csrRow data indices (indptr i) (indptr (i + 1) - indptr i)))
            + 1e-20))) := by
  simp only [nb_ulm, if_pos (And.intro hi hj), biasedVar_eq_covBias]

/-- Witness for C1 at a concrete one-sample, two-feature input. -/
theorem C1_kernel_formula_witness :
    nb_ulm 1 2 (fun _ => 1) (fun i => 2 * i) (fun p => p) 2 1
        (fun k _ => (k : ℝ)) 0 0 =
      (covBias 2 (fun k => (fun k _ => (k : ℝ)) k 0)
          (csrRow (fun _ => 1) (fun p => p) ((fun i => 2 * i) 0)
            ((fun i => 2 * i) (0 + 1) - (fun i => 2 * i) 0)) /
        Real.sqrt (biasedVar 2 (fun k => (fun k _ => (k : ℝ)) k 0) *
          biasedVar 2
            (csrRow (fun _ => 1) (fun p => p) ((fun i => 2 * i) 0)
              ((fun i => 2 * i) (0 + 1) - (fun i => 2 * i) 0)))) *
      Real.sqrt ((((2 : ℕ) : ℝ) - 2) /
        ((1 - covBias 2 (fun k => (fun k _ => (k : ℝ)) k 0)
              (csrRow (fun _ => 1) (fun p => p) ((fun i => 2 * i) 0)
                ((fun i => 2 * i) (0 + 1) - (fun i => 2 * i) 0)) /
            Real.sqrt (biasedVar 2 (fun k => (fun k _ => (k : ℝ)) k 0) *
              biasedVar 2
                (csrRow (fun _ => 1) (fun p => p) ((fun i => 2 * i) 0)
                  ((fun i => 2 * i) (0 + 1) - (fun i => 2 * i) 0)))
            + 1e-20) *
         (1 + covBias 2 (fun k => (fun k _ => (k : ℝ)) k 0)
              (csrRow (fun _ => 1) (fun p => p) ((fun i => 2 * i) 0)
                ((fun i => 2 * i) (0 + 1) - (fun i => 2 * i) 0)) /
            Real.sqrt (biasedVar 2 (fun k => (fun k _ => (k : ℝ)) k 0) *
              biasedVar 2
                (csrRow (fun _ => 1) (fun p => p) ((fun i => 2 * i) 0)
                  ((fun i => 2 * i) (0 + 1) - (fun i => 2 * i) 0)))
            + 1e-20))) :=
  C1_kernel_formula 1 2 (fun _ => 1) (fun i => 2 * i) (fun p => p) 2 1
    (fun k _ => (k : ℝ)) 0 0 (by decide) (by decide)

lemma pymean_neg (n : ℕ) (f : ℕ → ℝ) :
    pymean n (fun k => -(f k)) = -(pymean n f) := by
  unfold pymean
  rw [Finset.sum_neg_distrib, neg_div]

lemma covBias_neg_left (n : ℕ) (x y : ℕ → ℝ) :
    covBias n (fun k => -(x k)) y = -(covBias n x y) := by
  unfold covBias
  rw [← neg_div]
  congr 1
  rw [← Finset.sum_neg_distrib]
  refine Finset.sum_congr rfl fun k _ => ?_
  rw [pymean_neg]
  ring

lemma covBias_comm (n : ℕ) (x y : ℕ → ℝ) :
    covBias n x y = covBias n y x := by
  unfold covBias
  congr 1
  refine Finset.sum_congr rfl fun k _ => ?_
  ring

lemma covBias_neg_both (n : ℕ) (x : ℕ → ℝ) :
    covBias n (fun k => -(x k)) (fun k => -(x k)) = covBias n x x := by
  rw [covBias_neg_left, covBias_comm, covBias_neg_left, covBias_comm, neg_neg]

lemma tstat_odd (d e r : ℝ) :
    (-r) * Real.sqrt (d / ((1 - -r + e) * (1 + -r + e))) =
      -(r * Real.sqrt (d / ((1 - r + e) * (1 + r + e)))) := by
  have harg : d / ((1 - -r + e) * (1 + -r + e)) =
      d / ((1 - r + e) * (1 + r + e)) := by ring_nf
  rw [harg, neg_mul]

/-- C6: negating every weight of regulator column `j0` negates that
regulator's estimate for every sample, leaves its absolute value unchanged,
and hence leaves the two-sided p-value produced by the finisher unchanged. -/
theorem C6_sign_law (cdf : ℝ → ℝ → ℝ) (n_samples n_features : ℕ)
    (data : ℕ → ℝ) (indptr indices : ℕ → ℕ) (netRows n_fsets : ℕ)
    (net : ℕ → ℕ → ℝ) (j0 i : ℕ) :
    nb_ulm n_samples n_features data indptr indices netRows n_fsets
        (fun k j => if j = j0 then -(net k j) else net k j) i j0 =
      -(nb_ulm n_samples n_features data indptr indices netRows n_fsets net i j0) ∧
    |nb_ulm n_samples n_features data indptr indices netRows n_fsets
        (fun k j => if j = j0 then -(net k j) else net k j) i j0| =
      |nb_ulm n_samples n_features data indptr indices netRows n_fsets net i j0| ∧
    ttest_finish cdf ((netRows : ℝ) - 2)
        (nb_ulm n_samples n_features data indptr indices netRows n_fsets
          (fun k j => if j = j0 then -(net k j) else net k j)) i j0 =
      ttest_finish cdf ((netRows : ℝ) - 2)
        (nb_ulm n_samples n_features data indptr indices netRows n_fsets net) i j0 := by
  have hmain :
      nb_ulm n_samples n_features data indptr indices netRows n_fsets
          (fun k j => if j = j0 then -(net k j) else net k j) i j0 =
        -(nb_ulm n_samples n_features data indptr indices netRows n_fsets net i j0) := by
    unfold nb_ulm
    by_cases h : i < n_samples ∧ j0 < n_fsets
    · simp only [if_pos h, eq_self_iff_true, if_true]
      rw [covBias_neg_both, covBias_neg_left, neg_div, covBias_comm, tstat_odd,
        covBias_comm]
    · simp only [if_neg h, neg_zero]
  refine ⟨hmain, ?_, ?_⟩
  · rw [hmain, abs_neg]
  · unfold ttest_finish
    rw [hmain, abs_neg]

/-- C7: the Statistical Finisher produces, entry for entry (hence with the
same shape as the estimate matrix), `p = 2 * (1 - CDF_t(|t|; df))`, and the
result lies in `[0, 1]` whenever `cdf` is a genuine Student-t CDF, i.e. is
bounded by 1 and is at least `1/2` on nonnegative arguments (the CDF of a
symmetric distribution at `|t| ≥ 0`). -/
theorem C7_finisher (cdf : ℝ → ℝ → ℝ)
    (hcdf1 : ∀ d x : ℝ, cdf d x ≤ 1)
    (hcdf2 : ∀ d x : ℝ, 0 ≤ x → 1 / 2 ≤ cdf d x)
    (df : ℝ) (t : ℕ → ℕ → ℝ) (i j : ℕ) :
    ttest_finish cdf df t i j = 2 * (1 - cdf df |t i j|) ∧
    0 ≤ ttest_finish cdf df t i j ∧
    ttest_finish cdf df t i j ≤ 1 := by
  refine ⟨rfl, ?_, ?_⟩
  · unfold ttest_finish
    have h := hcdf1 df |t i j|
    nlinarith
  · unfold ttest_finish
    have h := hcdf2 df |t i j| (abs_nonneg _)
    nlinarith

/-- Witness for C7 at the constant CDF `1` and a zero estimate matrix. -/
theorem C7_finisher_witness :
    ttest_finish (fun _ _ => 1) 1 (fun _ _ => 0) 0 0 =
        2 * (1 - (fun (_ : ℝ) (_ : ℝ) => (1 : ℝ)) 1 |(fun _ _ => (0 : ℝ)) 0 0|) ∧
    0 ≤ ttest_finish (fun _ _ => 1) 1 (fun _ _ => 0) 0 0 ∧
    ttest_finish (fun _ _ => 1) 1 (fun _ _ => 0) 0 0 ≤ 1 :=
  C7_finisher (fun _ _ => 1) (fun _ _ => le_refl 1)
    (fun _ _ _ => by norm_num) 1 (fun _ _ => 0) 0 0

/-- C9 counterexample: with an aligned weight matrix of 2 rows the degrees
of freedom are `2 - 2 = 0 < 1`, yet `ulm` signals no error: it returns an
`Except.ok` pair of result matrices. -/
theorem C9_counterexample :
    ((2 : ℝ) - 2 < 1) ∧
    (ulm (fun _ _ => 1) 1 2 (fun _ => 1) (fun i => 2 * i) (fun p => p) 2 1
        (fun _ _ => 1)).isOk = true := by
  exact ⟨by norm_num, rfl⟩

/-- C9 (amended): `ulm` performs no degrees-of-freedom validation; even when
the aligned weight matrix has fewer than 3 rows (so `df < 1`) it silently
computes and returns the estimate and p-value matrices. -/
theorem C9_no_df_check (cdf : ℝ → ℝ → ℝ) (n_samples n_features : ℕ)
    (data : ℕ → ℝ) (indptr indices : ℕ → ℕ) (netRows n_fsets : ℕ)
    (net : ℕ → ℕ → ℝ) (hsmall : netRows < 3) :
    (ulm cdf n_samples n_features data indptr indices netRows n_fsets net).isOk
      = true := rfl

/-- Witness for C9's amended theorem at a concrete 2-row weight matrix. -/
theorem C9_no_df_check_witness :
    (ulm (fun _ _ => 1) 1 2 (fun _ => 0) (fun i => 2 * i) (fun p => p) 2 1
        (fun _ _ => 0)).isOk = true :=
  C9_no_df_check (fun _ _ => 1) 1 2 (fun _ => 0) (fun i => 2 * i) (fun p => p)
    2 1 (fun _ _ => 0) (by decide)

/-- A Python function signature: parameter names in order, and how many of
the leading parameters have no default value. -/
structure PySig where
  params : List String
  nRequired : ℕ

/-- CPython call binding: a call with `nPos` positional arguments and the
keyword-argument names `kws` binds against `sig` iff there are not more
positional arguments than parameters, every keyword names a parameter, no
keyword names a parameter already bound positionally, and every
default-less parameter is bound. -/
def bindOk (sig : PySig) (nPos : ℕ) (kws : List String) : Bool :=
  decide (nPos ≤ sig.params.length) &&
  kws.all (fun k => sig.params.contains k) &&
  kws.all (fun k => decide (nPos ≤ sig.params.indexOf k)) &&
  (List.range sig.nRequired).all
    (fun idx => decide (idx < nPos) || kws.contains (sig.params.getD idx ""))

/-- Signature of `pre.extract(mat, use_raw=True, dtype=np.float32)`. -/
def extractSig : PySig := ⟨["mat", "use_raw", "dtype"], 1⟩

/-- Signature of `pre.match(mat, c, r, net)` (all four required). -/
def matchSig : PySig := ⟨["mat", "c", "r", "net"], 4⟩

/-- `run_ulm` from `method_ulm.py`.  Its first statement is
`extract(mat, use_raw=use_raw, verbose=verbose)`; CPython checks the call
binding before the callee body runs, and `extract` has no `verbose`
parameter, so a `TypeError` is raised there.  The later pipeline stages
(`rename_net`, `filt_min_n`, `get_net_mat`, the ill-formed 3-argument
`match(c, targets, net)` call, `ulm`, and the DataFrame/AnnData packaging)
are unreachable; the model keeps the second failing call check and cuts the
dead branch short at it. -/
def run_ulm {α : Type} (mat : α) (net : List NetRec) :
    Except PyErr ((ℕ → ℕ → ℝ) × (ℕ → ℕ → ℝ)) :=
  if bindOk extractSig 1 ["use_raw", "verbose"] then
    if bindOk matchSig 3 [] then
      Except.ok (fun _ _ => 0, fun _ _ => 0)
    else Except.error PyErr.typeError
  else Except.error PyErr.typeError

/-- C2: for every input container and network table, `run_ulm` raises a
`TypeError` before computing any estimate: the `extract` call passes an
unexpected keyword `verbose`, and (were that ever reached) the `match` call
passes only 3 of 4 required positional arguments; consequently `run_ulm`
never returns estimate/p-value matrices. -/
theorem C2_run_ulm_type_error {α : Type} (mat : α) (net : List NetRec) :
    run_ulm mat net = Except.error PyErr.typeError ∧
    bindOk extractSig 1 ["use_raw", "verbose"] = false ∧
    bindOk matchSig 3 [] = false := by
  refine ⟨?_, rfl, rfl⟩
  unfold run_ulm
  rfl

/-- `np.unique` on an array of strings: sorted, duplicate-free values. -/
def sortedDedup (l : List String) : List String :=
  (l.insertionSort (· ≤ ·)).dedup

lemma mem_sortedDedup {l : List String} {a : String} :
    a ∈ sortedDedup l ↔ a ∈ l := by
  unfold sortedDedup
  rw [List.mem_dedup]
  exact (List.perm_insertionSort (· ≤ ·) l).mem_iff

/-- `filt_min_n` from `pre.py`: mask the records whose target is a known
feature label, count the occurrences of each source among those records
(`np.unique(..., return_counts=True)`), and keep exactly the records whose
source reaches `min_n` such occurrences. -/
def filt_min_n (c : List String) (net : List NetRec) (min_n : ℕ) :
    List NetRec :=
  let resolvable := net.filter fun e => decide (e.target ∈ c)
  let srcs := sortedDedup (resolvable.map (·.source))
  let kept := srcs.filter fun s =>
    decide (min_n ≤ (resolvable.filter fun e => decide (e.source = s)).length)
  net.filter fun e => decide (e.source ∈ kept)

/-- Number of records of `net` whose source is `s` and whose target resolves
to a feature label in `c` (the claim's "target records resolving to a known
feature label"). -/
def countResolvable (c : List String) (net : List NetRec) (s : String) : ℕ :=
  (net.filter fun e => decide (e.source = s ∧ e.target ∈ c)).length

lemma countResolvable_eq (c : List String) (net : List NetRec) (s : String) :
    countResolvable c net s =
      ((net.filter fun e => decide (e.target ∈ c)).filter
        fun e => decide (e.source = s)).length := by
  unfold countResolvable
  rw [List.filter_filter]
  congr 1
  refine List.filter_congr fun e _ => ?_
  by_cases h1 : e.target ∈ c <;> by_cases h2 : e.source = s <;>
    simp [h1, h2]

lemma filt_min_n_mem_kept (c : List String) (net : List NetRec)
    (min_n : ℕ) (hmin : 1 ≤ min_n) (e : NetRec) :
    (decide (e.source ∈
        (sortedDedup ((net.filter fun e' => decide (e'.target ∈ c)).map (·.source))).filter
          fun s => decide (min_n ≤
            ((net.filter fun e' => decide (e'.target ∈ c)).filter
              fun e' => decide (e'.source = s)).length)))
      = decide (min_n ≤ countResolvable c net e.source) := by
  rw [decide_eq_decide]
  rw [List.mem_filter]
  constructor
  · rintro ⟨-, hcnt⟩
    rw [countResolvable_eq]
    simpa using hcnt
  · intro hcnt
    have hcnt' := hcnt
    rw [countResolvable_eq] at hcnt'
    refine ⟨?_, by simpa using hcnt'⟩
    rw [mem_sortedDedup]
    have hpos : 0 <
        ((net.filter fun e' => decide (e'.target ∈ c)).filter
          fun e' => decide (e'.source = e.source)).length :=
      lt_of_lt_of_le hmin hcnt'
    rw [List.length_pos] at hpos
    obtain ⟨e', he'⟩ := List.exists_mem_of_ne_nil _ hpos
    have hmem := List.mem_filter.mp he'
    refine List.mem_map.mpr ⟨e', hmem.1, ?_⟩
    have := of_decide_eq_true hmem.2
    exact this

/-- C4 counterexample: with `min_n = 0` the claim says no record is ever
removed ("fewer than 0 resolvable records" holds of nothing), yet a record
whose regulator has zero resolvable targets is dropped, because
`np.unique` only lists regulators that occur among the resolvable records. -/
theorem C4_counterexample :
    filt_min_n ["G1"] [⟨"T1", "G2", (1 : ℝ)⟩] 0 = [] ∧
    ¬ countResolvable ["G1"] [⟨"T1", "G2", (1 : ℝ)⟩] "T1" < 0 := by
  exact ⟨rfl, by decide⟩

/-- C4 (amended): for `min_n ≥ 1`, `filt_min_n` removes exactly the records
whose regulator has fewer than `min_n` target records resolving to a known
feature label (so every record of a surviving regulator is kept), the
output is a sublist of the input (original order preserved), and every
regulator on the output's regulator axis has at least `min_n` resolvable
records.  (With `min_n = 0` the code additionally drops every record whose
regulator has no resolvable target at all.) -/
theorem C4_filt_min_n (c : List String) (net : List NetRec) (min_n : ℕ)
    (hmin : 1 ≤ min_n) :
    filt_min_n c net min_n =
      net.filter (fun e => decide (min_n ≤ countResolvable c net e.source)) ∧
    (filt_min_n c net min_n).Sublist net ∧
    (∀ s, s ∈ (filt_min_n c net min_n).map (·.source) →
      min_n ≤ countResolvable c net s) := by
  have hchar : filt_min_n c net min_n =
      net.filter (fun e => decide (min_n ≤ countResolvable c net e.source)) := by
    unfold filt_min_n
    exact List.filter_congr fun e _ => filt_min_n_mem_kept c net min_n hmin e
  refine ⟨hchar, ?_, ?_⟩
  · rw [hchar]
    exact List.filter_sublist net
  · intro s hs
    rw [hchar] at hs
    obtain ⟨e, he, hes⟩ := List.mem_map.mp hs
    have := of_decide_eq_true (List.mem_filter.mp he).2
    rwa [hes] at this

/-- Witness for C4 at `min_n = 1` on a two-regulator network where only
regulator `T1` has a resolvable target. -/
theorem C4_filt_min_n_witness :
    filt_min_n ["G1"] [⟨"T1", "G1", (1 : ℝ)⟩, ⟨"T2", "G9", (2 : ℝ)⟩] 1 =
      List.filter
        (fun e => decide (1 ≤ countResolvable ["G1"]
          [⟨"T1", "G1", (1 : ℝ)⟩, ⟨"T2", "G9", (2 : ℝ)⟩] e.source))
        [⟨"T1", "G1", (1 : ℝ)⟩, ⟨"T2", "G9", (2 : ℝ)⟩] ∧
    (filt_min_n ["G1"] [⟨"T1", "G1", (1 : ℝ)⟩, ⟨"T2", "G9", (2 : ℝ)⟩] 1).Sublist
      [⟨"T1", "G1", (1 : ℝ)⟩, ⟨"T2", "G9", (2 : ℝ)⟩] ∧
    (∀ s, s ∈ (filt_min_n ["G1"]
        [⟨"T1", "G1", (1 : ℝ)⟩, ⟨"T2", "G9", (2 : ℝ)⟩] 1).map (·.source) →
      1 ≤ countResolvable ["G1"]
        [⟨"T1", "G1", (1 : ℝ)⟩, ⟨"T2", "G9", (2 : ℝ)⟩] s) :=
  C4_filt_min_n ["G1"] [⟨"T1", "G1", (1 : ℝ)⟩, ⟨"T2", "G9", (2 : ℝ)⟩] 1
    (le_refl 1)

/-- `get_net_mat` from `pre.py`: `net.pivot(columns='source', index='target',
values='weight')` raises `ValueError` ("Index contains duplicate entries,
cannot reshape") when some (target, source) pair occurs in more than one
record; otherwise it yields the sorted unique source labels, the sorted
unique target labels, and the dense weight matrix keyed by (target, source)
label, with `X[np.isnan(X)] = 0` turning every recordless cell into 0. -/
def get_net_mat (net : List NetRec) :
    Except PyErr (List String × List String × (String → String → ℝ)) :=
  if (net.map fun e => (e.target, e.source)).Nodup then
    Except.ok
      (sortedDedup (net.map (·.source)),
       sortedDedup (net.map (·.target)),
       fun t s =>
         match net.find? (fun e => decide (e.target = t ∧ e.source = s)) with
         | some e => e.weight
         | none => 0)
  else Except.error PyErr.valueError

/-- C3 counterexample: on a network with a duplicate (target, regulator)
pair the pivot does not succeed with last-write-wins semantics; it raises
`ValueError`. -/
theorem C3_counterexample :
    get_net_mat [⟨"A", "B", (1 : ℝ)⟩, ⟨"A", "B", (2 : ℝ)⟩] =
      Except.error PyErr.valueError := rfl

/-- C3 (amended): on any network containing a duplicate (target, regulator)
pair, `get_net_mat` fails with a `ValueError` instead of pivoting with
last-write-wins semantics; on a duplicate-free network the pivot succeeds
and every (target, regulator) cell with no record is 0.0, never left
undefined. -/
theorem C3_get_net_mat (net : List NetRec) :
    (¬ (net.map fun e => (e.target, e.source)).Nodup →
      get_net_mat net = Except.error PyErr.valueError) ∧
    ((net.map fun e => (e.target, e.source)).Nodup →
      ∀ t s : String, (∀ e ∈ net, ¬ (e.target = t ∧ e.source = s)) →
        (get_net_mat net).toOption.map (fun v => v.2.2 t s) = some 0) := by
  constructor
  · intro hdup
    unfold get_net_mat
    rw [if_neg hdup]
  · intro hnd t s hno
    have hfind : net.find? (fun e => decide (e.target = t ∧ e.source = s))
        = none := by
      rw [List.find?_eq_none]
      intro e he
      simpa using hno e he
    unfold get_net_mat
    rw [if_pos hnd]
    show some (match net.find? (fun e => decide (e.target = t ∧ e.source = s)) with
      | some e => e.weight
      | none => (0 : ℝ)) = some (0 : ℝ)
    rw [hfind]

/-- Witness for C3's amended theorem: a duplicate-free one-record network,
queried at a recordless (target, regulator) cell. -/
theorem C3_get_net_mat_witness :
    (get_net_mat [⟨"A", "B", (1 : ℝ)⟩]).toOption.map
      (fun v => v.2.2 "Z" "A") = some 0 :=
  (C3_get_net_mat [⟨"A", "B", (1 : ℝ)⟩]).2 (by decide) "Z" "A" (by decide)

/-- `match` from `pre.py` (named `match_mat` here because `match` is a Lean
keyword; the Python function's unused first parameter `mat` is dropped):
row `i` of the result is the first row of `net` whose target label in `r`
equals feature label `c[i]` (the inner loop breaks at the first hit), and a
zero row when no target label matches; rows beyond `c.length` do not exist
(modelled as zero). -/
def match_mat (c r : List String) (net : ℕ → ℕ → ℝ) : ℕ → ℕ → ℝ :=
  fun i k =>
    if h : i < c.length then
      match r.findIdx? (fun t => t = c.get ⟨i, h⟩) with
      | some j => net j k
      | none => 0
    else 0

lemma findIdx?_eq_unique {l : List String} {a : String} (hnd : l.Nodup)
    (j : ℕ) (hj : j < l.length) (ha : l.get ⟨j, hj⟩ = a) :
    l.findIdx? (fun t => decide (t = a)) = some j := by
  rw [List.findIdx?_eq_some_iff_getElem]
  refine ⟨hj, ?_, ?_⟩
  · simp only [decide_eq_true_eq]
    exact ha
  · intro j' hji
    simp only [decide_eq_true_eq]
    intro heq
    have h1 : l.get ⟨j', Nat.lt_trans hji hj⟩ = l.get ⟨j, hj⟩ :=
      Eq.trans heq ha.symm
    have h2 := (List.Nodup.get_inj_iff hnd).mp h1
    have h3 : j' = j := congrArg Fin.val h2
    exact absurd h3 (Nat.ne_of_lt hji)

/-- C5: row `i` of `match_mat` (for each feature label, in feature-label
order) equals the network's weight row for the target whose label exactly
equals feature label `i` when such a target exists (targets are unique
after the pivot, hence `r.Nodup`), and is all zeros otherwise. -/
theorem C5_match_rows (c r : List String) (net : ℕ → ℕ → ℝ) (i : ℕ)
    (hi : i < c.length) :
    ((∀ j (hj : j < r.length), r.get ⟨j, hj⟩ ≠ c.get ⟨i, hi⟩) →
      ∀ k, match_mat c r net i k = 0) ∧
    (r.Nodup → ∀ j (hj : j < r.length), r.get ⟨j, hj⟩ = c.get ⟨i, hi⟩ →
      ∀ k, match_mat c r net i k = net j k) := by
  constructor
  · intro hno k
    have hnone : r.findIdx? (fun t => decide (t = c.get ⟨i, hi⟩)) = none := by
      rw [List.findIdx?_eq_none_iff]
      intro x hx
      obtain ⟨⟨j, hj⟩, hg⟩ := List.get_of_mem hx
      exact decide_eq_false (hg ▸ hno j hj)
    unfold match_mat
    rw [dif_pos hi, hnone]
  · intro hnd j hj hget k
    have hsome := findIdx?_eq_unique hnd j hj hget
    unfold match_mat
    rw [dif_pos hi, hsome]

/-- Witness for C5: feature label "g2" (position 1) matches target "g2"
(position 0 of a duplicate-free target array), so the row is copied; the
other feature is checked through the same theorem instance is not needed. -/
theorem C5_match_rows_witness :
    match_mat ["g1", "g2"] ["g2"] (fun j k => (j : ℝ) + k) 1 5 =
      ((0 : ℕ) : ℝ) + ((5 : ℕ) : ℝ) :=
  (C5_match_rows ["g1", "g2"] ["g2"] (fun j k => (j : ℝ) + k) 1
      (by decide)).2 (by decide) 0 (by decide) (by decide) 5

/-- C8 (amended, universal part): a feature label absent from the
network's target-label array yields an all-zero row of the aligned weight
matrix; the kernel is a total function on such input (it cannot fail).
The original claim's further assertion — that the observed values of such
a feature do not contribute to any regulator's estimate — is false; see
the counterexample. -/
theorem C8_absent_feature_zero_row (c r : List String) (net : ℕ → ℕ → ℝ)
    (i : ℕ) (hi : i < c.length) (habs : c.get ⟨i, hi⟩ ∉ r) :
    ∀ k, match_mat c r net i k = 0 := by
  intro k
  have hnone : r.findIdx? (fun t => decide (t = c.get ⟨i, hi⟩)) = none := by
    rw [List.findIdx?_eq_none_iff]
    intro x hx
    refine decide_eq_false fun hxa => habs ?_
    exact hxa ▸ hx
  unfold match_mat
  rw [dif_pos hi, hnone]

/-- Witness for C8's amended theorem: feature "g1" is not a network target,
so its aligned row is zero. -/
theorem C8_absent_feature_zero_row_witness :
    match_mat ["g1"] ["t1"] (fun j k => (j : ℝ) + k) 0 3 = 0 :=
  C8_absent_feature_zero_row ["g1"] ["t1"] (fun j k => (j : ℝ) + k) 0
    (by decide) (by decide) 3

/-- Aligned weight matrix for the C8 scenario: one regulator over three
features with weights (1, 2, 0); feature 2 is absent from the network, so
its row is zero. -/
def netC8 : ℕ → ℕ → ℝ :=
  fun k _ => if k = 0 then 1 else if k = 1 then 2 else 0

/-- CSR values of sample A, the dense row (1, 2, 0). -/
def dataC8A : ℕ → ℝ := fun p => if p = 0 then 1 else if p = 1 then 2 else 0

/-- CSR values of sample B, the dense row (1, 2, 5): identical to sample A
except at the network-absent feature 2. -/
def dataC8B : ℕ → ℝ := fun p => if p = 0 then 1 else if p = 1 then 2 else 5

/-- CSR column indices for both samples: position `p` stores feature `p`. -/
def indC8 : ℕ → ℕ := fun p => p

/-- CSR row pointer of sample A (2 stored values). -/
def ptrC8A : ℕ → ℕ := fun i => 2 * i

/-- CSR row pointer of sample B (3 stored values). -/
def ptrC8B : ℕ → ℕ := fun i => 3 * i

lemma pymean_three (f : ℕ → ℝ) : pymean 3 f = (f 0 + f 1 + f 2) / 3 := by
  simp [pymean, Finset.sum_range_succ]

lemma covBias_three (x y : ℕ → ℝ) :
    covBias 3 x y =
      ((x 0 - (x 0 + x 1 + x 2) / 3) * (y 0 - (y 0 + y 1 + y 2) / 3) +
       (x 1 - (x 0 + x 1 + x 2) / 3) * (y 1 - (y 0 + y 1 + y 2) / 3) +
       (x 2 - (x 0 + x 1 + x 2) / 3) * (y 2 - (y 0 + y 1 + y 2) / 3)) / 3 := by
  simp [covBias, pymean_three, Finset.sum_range_succ]

lemma rowC8A_0 : csrRow dataC8A indC8 0 2 0 = 1 := rfl
lemma rowC8A_1 : csrRow dataC8A indC8 0 2 1 = 2 := rfl
lemma rowC8A_2 : csrRow dataC8A indC8 0 2 2 = 0 := rfl
lemma rowC8B_0 : csrRow dataC8B indC8 0 3 0 = 1 := rfl
lemma rowC8B_1 : csrRow dataC8B indC8 0 3 1 = 2 := rfl
lemma rowC8B_2 : csrRow dataC8B indC8 0 3 2 = 5 := rfl

lemma nb_ulm_apply (n_samples n_features : ℕ) (data : ℕ → ℝ)
    (indptr indices : ℕ → ℕ) (netRows n_fsets : ℕ) (net : ℕ → ℕ → ℝ)
    (i j : ℕ) (h : i < n_samples ∧ j < n_fsets) :
    nb_ulm n_samples n_features data indptr indices netRows n_fsets net i j =
      (fun r : ℝ =>
        r * Real.sqrt (((netRows : ℝ) - 2) /
          ((1 - r + 1e-20) * (1 + r + 1e-20))))
      (covBias n_features (fun k => net k j)
          (csrRow data indices (indptr i) (indptr (i + 1) - indptr i)) /
        Real.sqrt
          (covBias n_features (fun k => net k j) (fun k => net k j) *
           covBias n_features
             (csrRow data indices (indptr i) (indptr (i + 1) - indptr i))
             (csrRow data indices (indptr i) (indptr (i + 1) - indptr i)))) := by
  simp only [nb_ulm, if_pos h]

lemma covC8_xx :
    covBias 3 (fun k => netC8 k 0) (fun k => netC8 k 0) = 2 / 3 := by
  rw [covBias_three]
  norm_num [netC8]

lemma covC8A_xr :
    covBias 3 (fun k => netC8 k 0) (csrRow dataC8A indC8 0 2) = 2 / 3 := by
  rw [covBias_three]
  rw [rowC8A_0, rowC8A_1, rowC8A_2]
  norm_num [netC8]

lemma covC8A_rr :
    covBias 3 (csrRow dataC8A indC8 0 2) (csrRow dataC8A indC8 0 2) = 2 / 3 := by
  rw [covBias_three]
  rw [rowC8A_0, rowC8A_1, rowC8A_2]
  norm_num

lemma covC8B_xr :
    covBias 3 (fun k => netC8 k 0) (csrRow dataC8B indC8 0 3) = -1 := by
  rw [covBias_three]
  rw [rowC8B_0, rowC8B_1, rowC8B_2]
  norm_num [netC8]

lemma covC8B_rr :
    covBias 3 (csrRow dataC8B indC8 0 3) (csrRow dataC8B indC8 0 3) = 26 / 9 := by
  rw [covBias_three]
  rw [rowC8B_0, rowC8B_1, rowC8B_2]
  norm_num

lemma esC8A_pos : 0 < nb_ulm 1 3 dataC8A ptrC8A indC8 3 1 netC8 0 0 := by
  rw [nb_ulm_apply 1 3 dataC8A ptrC8A indC8 3 1 netC8 0 0 (by norm_num)]
  norm_num [ptrC8A]
  rw [covC8A_xr, covC8_xx, covC8A_rr]
  rw [Real.sqrt_mul_self (by norm_num : (0 : ℝ) ≤ 2 / 3)]
  norm_num

lemma esC8B_nonpos : nb_ulm 1 3 dataC8B ptrC8B indC8 3 1 netC8 0 0 ≤ 0 := by
  rw [nb_ulm_apply 1 3 dataC8B ptrC8B indC8 3 1 netC8 0 0 (by norm_num)]
  norm_num [ptrC8B]
  rw [covC8B_xr, covC8_xx, covC8B_rr]
  refine mul_nonpos_iff.mpr (Or.inr ⟨?_, Real.sqrt_nonneg _⟩)
  refine div_nonpos_iff.mpr (Or.inr ⟨by norm_num, Real.sqrt_nonneg _⟩)

/-- C8 counterexample: feature 2 is absent from the network (its aligned
row is zero), samples A and B agree on every feature except feature 2
(value 0 vs 5), yet the regulator's estimate differs between A and B —
through the sample's mean and variance the absent feature's observed value
does contribute to the estimate. -/
theorem C8_counterexample :
    (∀ j, netC8 2 j = 0) ∧
    (∀ k, k ≠ 2 → csrRow dataC8A indC8 0 2 k = csrRow dataC8B indC8 0 3 k) ∧
    nb_ulm 1 3 dataC8A ptrC8A indC8 3 1 netC8 0 0 ≠
      nb_ulm 1 3 dataC8B ptrC8B indC8 3 1 netC8 0 0 := by
  refine ⟨fun j => rfl, ?_, ?_⟩
  · intro k hk
    unfold csrRow dataC8A dataC8B indC8
    simp only [List.range_succ, List.range_zero, List.nil_append,
      List.cons_append, List.foldl_cons, List.foldl_nil, Nat.add_zero,
      Nat.zero_add]
    rcases k with _ | _ | _ | k
    · norm_num
    · norm_num
    · exact absurd rfl hk
    · norm_num
  · exact ne_of_gt (lt_of_le_of_lt esC8B_nonpos esC8A_pos)

/-- A cell value of a pandas DataFrame column: a string identifier, a
float, or a missing value (the NaN a reindex introduces for an absent
column). -/
inductive PVal
  | s (v : String)
  | f (v : ℝ)
  | na

/-- A pandas DataFrame, modelled as its ordered list of named columns. -/
abbrev Table := List (String × List PVal)

/-- `col in df.columns`. -/
def hasCol (t : Table) (c : String) : Bool := (t.map (·.1)).contains c

/-- `df[c]`, as an optional column. -/
def lookupCol (t : Table) (c : String) : Option (List PVal) :=
  (t.find? (fun p => p.1 = c)).map (·.2)

/-- Number of rows of the table (length of its first column). -/
def nrowsT (t : Table) : ℕ := ((t.head?).map (fun p => p.2.length)).getD 0

/-- `df[c] = v` with a scalar `v`: overwrite the column in place when it
exists, else append it. -/
def setColConst (t : Table) (c : String) (v : PVal) : Table :=
  if hasCol t c then
    t.map (fun p => if p.1 = c then (p.1, List.replicate p.2.length v) else p)
  else t ++ [(c, List.replicate (nrowsT t) v)]

/-- `df.rename(columns={source: 'source', target: 'target', weight:
'weight'})`: every column name is sent through the dict.  When two of the
binding names coincide the later dict entry wins, hence the chain checks
`weight`, then `target`, then `source`. -/
def renameCols (t : Table) (source target weight : String) : Table :=
  t.map (fun p =>
    (if p.1 = weight then "weight"
     else if p.1 = target then "target"
     else if p.1 = source then "source"
     else p.1, p.2))

/-- `df.reindex(columns=cs)`: the named columns in order, an all-NaN
column standing in for a name the table does not have. -/
def reindexCols (t : Table) (cs : List String) : Table :=
  cs.map (fun c =>
    (c, (lookupCol t c).getD (List.replicate (nrowsT t) PVal.na)))

/-- `rename_net` from `pre.py`, with Python object identity made explicit:
tables live in a store (list of tables) and are denoted by their index.
The two `assert`s raise `AssertionError` when the `source`/`target` (or a
given `weight`) column name is missing.  With `weight=None` the code
prints a notice to stderr (returned as the log), copies the table
(`net.copy()`, a fresh store entry) and overwrites the copy's weight
column in place (`net['weight'] = 1.0`); `rename` and `reindex` each
return a fresh table.  Result: (new store, index of the returned table,
stderr log). -/
def rename_net (store : List Table) (ref : ℕ) (source target : String)
    (weight : Option String) :
    Except PyErr (List Table × ℕ × List String) :=
  let net := store.getD ref []
  if hasCol net source then
    if hasCol net target then
      match weight with
      | some w =>
        if hasCol net w then
          let result := reindexCols (renameCols net source target w)
            ["source", "target", "weight"]
          Except.ok (store ++ [result], store.length, [])
        else Except.error PyErr.assertionError
      | none =>
        let store1 := store ++ [net]
        let mutated := setColConst net "weight" (PVal.f 1)
        let store2 := store1.set store.length mutated
        let result := reindexCols (renameCols mutated source target "weight")
          ["source", "target", "weight"]
        Except.ok (store2 ++ [result], store2.length,
          ["weight column not provided, will be set to 1s."])
    else Except.error PyErr.assertionError
  else Except.error PyErr.assertionError

lemma store_getD_append (l l2 : List Table) (i : ℕ) (h : i < l.length) :
    (l ++ l2).getD i [] = l.getD i [] := by
  rw [List.getD_eq_getElem?_getD, List.getD_eq_getElem?_getD,
    List.getElem?_append_left h]

lemma store_getD_set_append (store : List Table) (net mutated : Table)
    (i : ℕ) (h : i < store.length) :
    ((store ++ [net]).set store.length mutated).getD i [] =
      store.getD i [] := by
  rw [List.getD_eq_getElem?_getD, List.getElem?_set_ne (ne_of_gt h),
    List.getElem?_append_left h, ← List.getD_eq_getElem?_getD]

lemma lookupCol_map_name (t : Table) (g : String → String) (c : String)
    (hg : ∀ s, g s = c ↔ s = c) :
    lookupCol (t.map (fun p => (g p.1, p.2))) c = lookupCol t c := by
  induction t with
  | nil => rfl
  | cons p t ih =>
    unfold lookupCol
    rw [List.map_cons]
    by_cases hp : p.1 = c
    · rw [List.find?_cons_of_pos _ (by simp [(hg p.1).mpr hp]),
        List.find?_cons_of_pos _ (by simp [hp])]
      simp
    · rw [List.find?_cons_of_neg _ (by
          simp only [decide_eq_true_eq]
          exact fun h => hp ((hg p.1).mp h)),
        List.find?_cons_of_neg _ (by simp [hp])]
      exact ih

lemma renameCols_weight_iff (source target : String) (s : String) :
    (if s = "weight" then "weight"
     else if s = target then "target"
     else if s = source then "source"
     else s) = "weight" ↔ s = "weight" := by
  constructor
  · intro h
    by_cases h1 : s = "weight"
    · exact h1
    rw [if_neg h1] at h
    by_cases h2 : s = target
    · rw [if_pos h2] at h
      exact absurd h (by decide)
    rw [if_neg h2] at h
    by_cases h3 : s = source
    · rw [if_pos h3] at h
      exact absurd h (by decide)
    rw [if_neg h3] at h
    exact absurd h h1
  · intro h
    rw [if_pos h]

lemma lookupCol_renameCols_weight (t : Table) (source target : String) :
    lookupCol (renameCols t source target "weight") "weight" =
      lookupCol t "weight" :=
  lookupCol_map_name t
    (fun s => if s = "weight" then "weight"
      else if s = target then "target"
      else if s = source then "source"
      else s)
    "weight" (renameCols_weight_iff source target)

lemma lookupCol_map_set (t : Table) (c : String) (v : PVal)
    (h : hasCol t c = true) :
    ∃ n, lookupCol
        (t.map (fun p => if p.1 = c then (p.1, List.replicate p.2.length v) else p))
        c = some (List.replicate n v) := by
  induction t with
  | nil => simp [hasCol] at h
  | cons p t ih =>
    by_cases hp : p.1 = c
    · refine ⟨p.2.length, ?_⟩
      unfold lookupCol
      rw [List.map_cons, if_pos hp,
        List.find?_cons_of_pos _ (by simp [hp])]
      rfl
    · have ht : hasCol t c = true := by
        unfold hasCol at h ⊢
        rw [List.map_cons, List.contains_cons] at h
        have : (c == p.1) = false := by
          simp only [beq_eq_false_iff_ne, ne_eq]
          exact fun he => hp he.symm
        rwa [this, Bool.false_or] at h
      obtain ⟨n, hn⟩ := ih ht
      refine ⟨n, ?_⟩
      unfold lookupCol at hn ⊢
      rw [List.map_cons, if_neg hp,
        List.find?_cons_of_neg _ (by simp [hp])]
      exact hn

lemma lookupCol_setColConst_self (t : Table) (c : String) (v : PVal) :
    ∃ n, lookupCol (setColConst t c v) c = some (List.replicate n v) := by
  unfold setColConst
  by_cases h : hasCol t c
  · rw [if_pos h]
    exact lookupCol_map_set t c v h
  · rw [if_neg h]
    refine ⟨nrowsT t, ?_⟩
    unfold lookupCol
    rw [List.find?_append]
    have hnone : t.find? (fun p => decide (p.1 = c)) = none := by
      rw [List.find?_eq_none]
      intro p hp hdec
      apply h
      unfold hasCol
      have hpc : p.1 = c := of_decide_eq_true hdec
      rw [List.contains_iff_exists_mem_beq]
      exact ⟨p.1, List.mem_map_of_mem (·.1) hp, by simp [hpc]⟩
    rw [hnone, Option.none_or,
      List.find?_cons_of_pos _ (by simp)]
    rfl

lemma reindex_lookup_weight (T : Table) :
    lookupCol (reindexCols T ["source", "target", "weight"]) "weight" =
      some ((lookupCol T "weight").getD (List.replicate (nrowsT T) PVal.na)) := rfl

lemma bool_ne_true_of_eq_false {b : Bool} (h : b = false) : ¬ b = true := by
  rw [h]
  exact Bool.false_ne_true

lemma getD_concat_length (l : List Table) (x : Table) :
    (l ++ [x]).getD l.length [] = x := by
  rw [List.getD_eq_getElem?_getD, List.getElem?_concat_length]
  rfl

/-- C10: `rename_net` fails (the `assert` raises) when the given regulator
or target column name is not a column of the table; when the weight column
name is omitted it emits the informational stderr notice and synthesizes a
uniform weight of 1.0 for every record of the returned table; and in every
successful case the caller's input table — like every other pre-existing
store entry — is left unmutated. -/
theorem C10_rename_net_contract (store : List Table) (ref : ℕ)
    (source target : String) (w? : Option String) :
    ((hasCol (store.getD ref []) source = false ∨
      hasCol (store.getD ref []) target = false) →
      rename_net store ref source target w? =
        Except.error PyErr.assertionError) ∧
    (∀ store' outRef log,
      rename_net store ref source target w? =
        Except.ok (store', outRef, log) →
      ∀ i, i < store.length → store'.getD i [] = store.getD i []) ∧
    (∀ store' outRef log, w? = none →
      rename_net store ref source target w? =
        Except.ok (store', outRef, log) →
      log = ["weight column not provided, will be set to 1s."] ∧
      ∀ col, lookupCol (store'.getD outRef []) "weight" = some col →
        ∀ v ∈ col, v = PVal.f 1) := by
  refine ⟨?_, ?_, ?_⟩
  · intro h
    simp only [rename_net]
    rcases h with h | h
    · rw [if_neg (bool_ne_true_of_eq_false h)]
    · by_cases hs : hasCol (store.getD ref []) source = true
      · rw [if_pos hs, if_neg (bool_ne_true_of_eq_false h)]
      · rw [if_neg hs]
  · intro store' outRef log heq i hi
    cases w? with
    | some w =>
      simp only [rename_net] at heq
      by_cases hs : hasCol (store.getD ref []) source = true
      swap
      · rw [if_neg hs] at heq
        exact absurd heq (by simp)
      rw [if_pos hs] at heq
      by_cases ht : hasCol (store.getD ref []) target = true
      swap
      · rw [if_neg ht] at heq
        exact absurd heq (by simp)
      rw [if_pos ht] at heq
      by_cases hw : hasCol (store.getD ref []) w = true
      swap
      · rw [if_neg hw] at heq
        exact absurd heq (by simp)
      rw [if_pos hw] at heq
      injection heq with htrip
      injection htrip with h1 h2
      rw [← h1]
      exact store_getD_append store _ i hi
    | none =>
      simp only [rename_net] at heq
      by_cases hs : hasCol (store.getD ref []) source = true
      swap
      · rw [if_neg hs] at heq
        exact absurd heq (by simp)
      rw [if_pos hs] at heq
      by_cases ht : hasCol (store.getD ref []) target = true
      swap
      · rw [if_neg ht] at heq
        exact absurd heq (by simp)
      rw [if_pos ht] at heq
      injection heq with htrip
      injection htrip with h1 h2
      rw [← h1]
      rw [store_getD_append]
      · exact store_getD_set_append store _ _ i hi
      · rw [List.length_set, List.length_append, List.length_singleton]
        exact Nat.lt_succ_of_lt hi
  · intro store' outRef log hwn heq
    subst hwn
    simp only [rename_net] at heq
    by_cases hs : hasCol (store.getD ref []) source = true
    swap
    · rw [if_neg hs] at heq
      exact absurd heq (by simp)
    rw [if_pos hs] at heq
    by_cases ht : hasCol (store.getD ref []) target = true
    swap
    · rw [if_neg ht] at heq
      exact absurd heq (by simp)
    rw [if_pos ht] at heq
    injection heq with htrip
    injection htrip with h1 h2
    injection h2 with h2a h2b
    refine ⟨h2b.symm, ?_⟩
    intro col hcol v hv
    rw [← h1, ← h2a] at hcol
    rw [getD_concat_length] at hcol
    rw [reindex_lookup_weight, lookupCol_renameCols_weight] at hcol
    obtain ⟨n, hn⟩ :=
      lookupCol_setColConst_self (store.getD ref []) "weight" (PVal.f 1)
    rw [hn] at hcol
    have hcol' : List.replicate n (PVal.f 1) = col := by
      simpa using hcol
    rw [← hcol'] at hv
    exact List.eq_of_mem_replicate hv

/-- Witness for C10 at a concrete store whose only table lacks the
requested regulator column, so the first `assert` fires. -/
theorem C10_rename_net_contract_witness :
    rename_net [[("tf", [PVal.s "T1"]), ("gene", [PVal.s "G1"])]] 0
      "nope" "gene" (some "w") = Except.error PyErr.assertionError :=
  (C10_rename_net_contract [[("tf", [PVal.s "T1"]), ("gene", [PVal.s "G1"])]]
    0 "nope" "gene" (some "w")).1 (Or.inl (by decide))
